import Mathlib

/-!
# zlog: a facade over a structured logging engine

A shallow embedding of `zap.go` and `writer.go`.

* Go pointers are heap indices: `Option Nat`, with `none` for `nil`.
* The process state is a `World`: the heap of engine objects, the heap of
  `Logger` objects, the package variable `logger`, the trace of method calls
  made on engines, and the records the engines wrote to standard error.
* A call either returns, panics (nil dereference) or exits the process
  (`Fatal`): see `Outcome`.
* `LogMode` and `LogEncoding` are Go string types that are only ever compared
  with constants; they are kept as Lean strings.  Log messages are byte
  strings, because `Writer.Write` converts an arbitrary byte slice.
* The engine (package `go.uber.org/zap`) is not part of the sources of this
  repository.  The part of it that the facade uses is modelled in the section
  "Engine model" below.
-/

namespace zlog

/-! ## Data model -/

/-- Go `string` used for log messages: an immutable byte sequence. -/
abbrev Msg := List UInt8

/-- The type `Field = zapcore.Field`: a key/value pair that the facade passes
through verbatim and never inspects. -/
structure Field where
  Key : String
  Value : String
  deriving DecidableEq, Repr

/-- The type `LogMode`, a Go string type. -/
abbrev LogMode := String

/-- The type `LogEncoding`, a Go string type. -/
abbrev LogEncoding := String

/-- The type `DebugVerbosity`, a Go `int`; it is only ever compared. -/
abbrev DebugVerbosity := Int

def ModeDevel : LogMode := "development"
def ModeProduction : LogMode := "production"
def ModeDisabled : LogMode := "disabled"

def EncodingJson : LogEncoding := "json"
def EncodingConsole : LogEncoding := "console"

/-- The struct `Logger`: a verbosity and a pointer to an engine. -/
structure Logger where
  verbosity : DebugVerbosity
  zap : Option Nat
  deriving DecidableEq, Repr

def ErrorLog : Int := 1
def InfoLog : Int := 2

/-- The struct `Writer`: a pointer to a `Logger` and a routing tag. -/
structure Writer where
  Logger : Option Nat
  Logtype : Int
  deriving DecidableEq, Repr

/-! ## Engine model -/

/-- Severity levels `zapcore.Level`. -/
abbrev Level := Int

def DebugLevel : Level := -1
def InfoLevel : Level := 0
def WarnLevel : Level := 1
def ErrorLevel : Level := 2
def FatalLevel : Level := 5

/-- The leveled methods of an engine. -/
inductive Method where
  | Debug | Info | Warn | Error | Fatal
  deriving DecidableEq, Repr

/-- Severity at which a leveled method logs. -/
def Method.level : Method → Level
  | .Debug => DebugLevel
  | .Info => InfoLevel
  | .Warn => WarnLevel
  | .Error => ErrorLevel
  | .Fatal => FatalLevel

/-- The two base encoder configurations that `New` chooses between. -/
inductive EncoderConfig where
  | production | development
  deriving DecidableEq, Repr

/-- The struct `zap.SamplingConfig`. -/
structure SamplingConfig where
  Initial : Nat
  Thereafter : Nat
  deriving DecidableEq, Repr

/-- The struct `zap.Config`, with the fields that `New` sets. -/
structure Config where
  Level : Level
  Development : Bool
  Sampling : Option SamplingConfig
  Encoding : String
  EncoderConfig : EncoderConfig
  OutputPaths : List String
  ErrorOutputPaths : List String
  deriving DecidableEq, Repr

/-- An engine object (`zap.Logger`).  `core = none` is the no-op core.
`counts` are the sampler counters, one per (level, message). -/
structure ZapLogger where
  core : Option Config
  callerSkip : Nat
  counts : List ((Level × Msg) × Nat)
  deriving DecidableEq, Repr

/-- A record written by an engine. -/
structure Entry where
  Level : Level
  Message : Msg
  Fields : List Field
  deriving DecidableEq, Repr

/-- A method call made on an engine pointer (which may be nil). -/
inductive EngineCall where
  | log (recv : Option Nat) (m : Method) (msg : Msg) (fields : List Field)
  | sync (recv : Option Nat)
  deriving DecidableEq, Repr

/-- The process state. -/
structure World where
  engines : List ZapLogger
  loggers : List Logger
  logger : Option Nat
  calls : List EngineCall
  stderr : List Entry
  deriving DecidableEq, Repr

/-- How a call ends: it returns a value, panics, or exits the process. -/
inductive Outcome (α : Type) where
  | returned (a : α) (w : World)
  | panicked (w : World)
  | exited (w : World)
  deriving DecidableEq, Repr

/-- Sequencing: the continuation runs only after a return. -/
def Outcome.bind {α β : Type} (o : Outcome α) (k : α → World → Outcome β) : Outcome β :=
  match o with
  | .returned a w => k a w
  | .panicked w => .panicked w
  | .exited w => .exited w

/-- The state in which a call ended. -/
def Outcome.world {α : Type} : Outcome α → World
  | .returned _ w => w
  | .panicked w => w
  | .exited w => w

/-- Whether the call returned. -/
def Outcome.isReturned {α : Type} : Outcome α → Bool
  | .returned _ _ => true
  | _ => false

/-- The value returned, if the call returned. -/
def Outcome.value {α : Type} : Outcome α → Option α
  | .returned a _ => some a
  | _ => none

/-- Modelled from the spec: the encodings the engine can build, JSON and
console/text (section 3, Encoding). -/
def registeredEncoders : List String := ["console", "json"]

/-- Modelled from the spec: `zap.Config.Build`, absent from the sources.  It
allocates an engine with the given configuration; it fails, returning a nil
engine, when the encoding is not one the engine knows. -/
def Config.Build (cfg : Config) (callerSkip : Nat) (w : World) : Option Nat × World :=
  if cfg.Encoding ∈ registeredEncoders then
    (some w.engines.length,
      { w with engines := w.engines ++ [{ core := some cfg, callerSkip := callerSkip, counts := [] }] })
  else
    (none, w)

/-- Modelled from the spec: `zap.NewNop`, absent from the sources.  It
allocates an engine that discards every record (section 4.1, disabled). -/
def NewNop (w : World) : Option Nat × World :=
  (some w.engines.length,
    { w with engines := w.engines ++ [{ core := none, callerSkip := 0, counts := [] }] })

/-- Modelled from the spec: the sampling rule of section 4.1.  The n-th
occurrence of a record in a window is kept when it is among the first
`Initial`, or is every `Thereafter`-th one after them. -/
def SamplingConfig.keeps (s : SamplingConfig) (n : Nat) : Bool :=
  !(decide (n > s.Initial) && (s.Thereafter == 0 || (n - s.Initial) % s.Thereafter != 0))

/-- Number of occurrences counted so far for a (level, message). -/
def ZapLogger.seen (z : ZapLogger) (k : Level × Msg) : Nat :=
  (z.counts.lookup k).getD 0

/-- Modelled from the spec: what an engine does with one record (sections 4.1
and 4.2), absent from the sources.  A no-op engine discards it; otherwise it
is dropped below the minimum severity, then counted and sampled when sampling
is configured, and written otherwise.  The counters are those of one sampling
window. -/
def ZapLogger.write (z : ZapLogger) (lvl : Level) (msg : Msg) (f : List Field) :
    ZapLogger × List Entry :=
  match z.core with
  | none => (z, [])
  | some cfg =>
    if lvl < cfg.Level then (z, [])
    else
      match cfg.Sampling with
      | none => (z, [{ Level := lvl, Message := msg, Fields := f }])
      | some s =>
        let n := z.seen (lvl, msg) + 1
        let z1 := { z with counts := ((lvl, msg), n) :: z.counts }
        if s.keeps n then (z1, [{ Level := lvl, Message := msg, Fields := f }]) else (z1, [])

/-- Modelled from the spec: a leveled method called on an engine pointer,
absent from the sources.  The call is traced.  The method reads the engine
behind its receiver, so a nil (or dangling) receiver is a nil dereference and
panics; otherwise the engine handles the record, and `Fatal` then terminates
the process (section 4.2). -/
def zapLog (recv : Option Nat) (m : Method) (msg : Msg) (f : List Field) (w : World) :
    Outcome Unit :=
  let w1 := { w with calls := w.calls ++ [EngineCall.log recv m msg f] }
  match recv with
  | none => .panicked w1
  | some i =>
    match w1.engines[i]? with
    | none => .panicked w1
    | some z =>
      let r := z.write m.level msg f
      let w2 := { w1 with engines := w1.engines.set i r.1, stderr := w1.stderr ++ r.2 }
      if m = Method.Fatal then .exited w2 else .returned () w2

/-- Modelled from the spec: `Sync` called on an engine pointer, absent from the
sources (section 4.1, the flush at construction).  The call is traced.  The
method reads the engine behind its receiver, so a nil receiver is a nil
dereference and panics; otherwise the flush leaves the modelled state as it
is. -/
def zapSync (recv : Option Nat) (w : World) : Outcome Unit :=
  let w1 := { w with calls := w.calls ++ [EngineCall.sync recv] }
  match recv with
  | none => .panicked w1
  | some i =>
    match w1.engines[i]? with
    | none => .panicked w1
    | some _ => .returned () w1

/-! ## zap.go -/

/-- Dereference of a `*Logger`. -/
def deref (w : World) (p : Option Nat) : Option Logger :=
  match p with
  | none => none
  | some i => w.loggers[i]?

/-- The function `New`.  The returned struct is allocated when the return
statement is evaluated; the deferred `Sync` runs after that. -/
def New (mode : LogMode) (enc : LogEncoding) (v : DebugVerbosity) (w : World) :
    Outcome (Option Nat) :=
  let encConf := if enc = EncodingConsole then EncoderConfig.development else EncoderConfig.production
  let r : Option Nat × World :=
    if mode = ModeDevel then
      Config.Build
        { Level := DebugLevel, Development := true, Sampling := none, Encoding := enc,
          EncoderConfig := encConf, OutputPaths := ["stderr"], ErrorOutputPaths := ["stderr"] }
        1 w
    else if mode = ModeProduction then
      Config.Build
        { Level := InfoLevel, Development := false,
          Sampling := some { Initial := 100, Thereafter := 100 }, Encoding := enc,
          EncoderConfig := encConf, OutputPaths := ["stderr"], ErrorOutputPaths := ["stderr"] }
        1 w
    else if mode = ModeDisabled then
      NewNop w
    else
      (none, w)
  let inst := r.1
  let w1 := r.2
  let w2 := { w1 with loggers := w1.loggers ++ [{ verbosity := v, zap := inst }] }
  (zapSync inst w2).bind fun _ w3 => .returned (some w1.loggers.length) w3

/-- The function `SetMode`. -/
def SetMode (mode : LogMode) (enc : LogEncoding) (v : DebugVerbosity) (w : World) :
    Outcome Unit :=
  (New mode enc v w).bind fun p w1 => .returned () { w1 with logger := p }

/-- The function `NewNoop`. -/
def NewNoop (w : World) : Outcome (Option Nat) :=
  New ModeDisabled EncodingConsole 0 w

/-- The state before package initialisation. -/
def World.empty : World :=
  { engines := [], loggers := [], logger := none, calls := [], stderr := [] }

/-- Package initialisation: `var logger = New(ModeDisabled, EncodingConsole, 0)`. -/
def init : Outcome Unit :=
  (New ModeDisabled EncodingConsole 0 World.empty).bind fun p w1 =>
    .returned () { w1 with logger := p }

/-- The free function `Info`. -/
def Info (msg : Msg) (f : List Field) (w : World) : Outcome Unit :=
  match deref w w.logger with
  | none => .panicked w
  | some l => zapLog l.zap Method.Info msg f w

/-- The free function `Debug`. -/
def Debug (v : DebugVerbosity) (msg : Msg) (f : List Field) (w : World) : Outcome Unit :=
  match deref w w.logger with
  | none => .panicked w
  | some l => if l.verbosity ≥ v then zapLog l.zap Method.Debug msg f w else .returned () w

/-- The free function `Warn`. -/
def Warn (msg : Msg) (f : List Field) (w : World) : Outcome Unit :=
  match deref w w.logger with
  | none => .panicked w
  | some l => zapLog l.zap Method.Warn msg f w

/-- The free function `Error`. -/
def Error (msg : Msg) (f : List Field) (w : World) : Outcome Unit :=
  match deref w w.logger with
  | none => .panicked w
  | some l => zapLog l.zap Method.Error msg f w

/-- The free function `Fatal`. -/
def Fatal (msg : Msg) (f : List Field) (w : World) : Outcome Unit :=
  match deref w w.logger with
  | none => .panicked w
  | some l => zapLog l.zap Method.Fatal msg f w

/-- The method `(*Logger).Info`. -/
def Logger.Info (l : Option Nat) (msg : Msg) (f : List Field) (w : World) : Outcome Unit :=
  match deref w l with
  | none => .panicked w
  | some s => zapLog s.zap Method.Info msg f w

/-- The method `(*Logger).Debug`. -/
def Logger.Debug (l : Option Nat) (v : DebugVerbosity) (msg : Msg) (f : List Field)
    (w : World) : Outcome Unit :=
  match deref w l with
  | none => .panicked w
  | some s => if s.verbosity ≥ v then zapLog s.zap Method.Debug msg f w else .returned () w

/-- The method `(*Logger).Warn`. -/
def Logger.Warn (l : Option Nat) (msg : Msg) (f : List Field) (w : World) : Outcome Unit :=
  match deref w l with
  | none => .panicked w
  | some s => zapLog s.zap Method.Warn msg f w

/-- The method `(*Logger).Error`. -/
def Logger.Error (l : Option Nat) (msg : Msg) (f : List Field) (w : World) : Outcome Unit :=
  match deref w l with
  | none => .panicked w
  | some s => zapLog s.zap Method.Error msg f w

/-- The method `(*Logger).Fatal`. -/
def Logger.Fatal (l : Option Nat) (msg : Msg) (f : List Field) (w : World) : Outcome Unit :=
  match deref w l with
  | none => .panicked w
  | some s => zapLog s.zap Method.Fatal msg f w

/-! ## writer.go -/

/-- The method `(*Writer).Write`; `string(p)` keeps the bytes of `p`.  The
result is `(n, err)` with `err = none` for a nil error. -/
def Writer.Write (z : Writer) (p : List UInt8) (w : World) : Outcome (Int × Option String) :=
  let o : Outcome Unit :=
    if z.Logtype = InfoLog then Logger.Info z.Logger p [] w
    else if z.Logtype = ErrorLog then Logger.Error z.Logger p [] w
    else .returned () w
  o.bind fun _ w1 => .returned ((p.length : Int), none) w1

/-! ## Notions used in the statements -/

/-- The pointer refers to a `Logger` whose engine pointer refers to an engine. -/
def live (w : World) (l : Option Nat) : Bool :=
  match deref w l with
  | none => false
  | some s =>
    match s.zap with
    | none => false
    | some i => (w.engines[i]?).isSome

/-- The state that a returning `New` leaves: one more engine `z`, one more
`Logger` holding it, and the traced construction-time `Sync`. -/
def World.afterNew (w : World) (v : DebugVerbosity) (z : ZapLogger) : World :=
  { engines := w.engines ++ [z],
    loggers := w.loggers ++ [{ verbosity := v, zap := some w.engines.length }],
    logger := w.logger,
    calls := w.calls ++ [EngineCall.sync (some w.engines.length)],
    stderr := w.stderr }

/-- A call of `Info`, `Warn` or `Error` with its arguments. -/
inductive LogOp where
  | Info (msg : Msg) (f : List Field)
  | Warn (msg : Msg) (f : List Field)
  | Error (msg : Msg) (f : List Field)
  deriving DecidableEq, Repr

/-- Runs one call on the `Logger` behind `l`. -/
def LogOp.run (l : Option Nat) : LogOp → World → Outcome Unit
  | .Info msg f, w => Logger.Info l msg f w
  | .Warn msg f, w => Logger.Warn l msg f w
  | .Error msg f, w => Logger.Error l msg f w

/-- Runs a finite sequence of calls on the `Logger` behind `l`, in order. -/
def runOps (l : Option Nat) : List LogOp → World → Outcome Unit
  | [], w => .returned () w
  | op :: ops, w => (op.run l w).bind fun _ w1 => runOps l ops w1

/-- The engine calls that a `Write` of `p` is to make, following section 4.4:
one `Info` call when the tag selects info, one `Error` call when it selects
error, none otherwise; the message is the whole buffer and there are no
fields. -/
def routed (z : Writer) (s : Logger) (p : List UInt8) : List EngineCall :=
  if z.Logtype = InfoLog then [EngineCall.log s.zap Method.Info p []]
  else if z.Logtype = ErrorLog then [EngineCall.log s.zap Method.Error p []]
  else []

/-! ## Lemmas on the engine model -/

theorem set_of_getElem? {α : Type} (l : List α) (i : Nat) (a : α) (h : l[i]? = some a) :
    l.set i a = l := by
  induction l generalizing i with
  | nil => simp
  | cons x xs ih =>
    cases i with
    | zero => simp at h; simp [h]
    | succ n => simp at h; simp [ih n h]

theorem zapLog_calls (recv : Option Nat) (m : Method) (msg : Msg) (f : List Field) (w : World) :
    (zapLog recv m msg f w).world.calls = w.calls ++ [EngineCall.log recv m msg f] := by
  unfold zapLog
  cases recv with
  | none => simp [Outcome.world]
  | some i =>
    cases h : w.engines[i]? with
    | none => simp [h, Outcome.world]
    | some z =>
      by_cases hm : m = Method.Fatal <;> simp [h, hm, Outcome.world]

theorem zapLog_engine (i : Nat) (z : ZapLogger) (m : Method) (msg : Msg) (f : List Field)
    (w : World) (h : w.engines[i]? = some z) (hm : m ≠ Method.Fatal) :
    zapLog (some i) m msg f w = .returned ()
      { w with
        calls := w.calls ++ [EngineCall.log (some i) m msg f],
        engines := w.engines.set i (z.write m.level msg f).1,
        stderr := w.stderr ++ (z.write m.level msg f).2 } := by
  unfold zapLog
  simp [h, hm]

theorem zapLog_nop (i : Nat) (z : ZapLogger) (m : Method) (msg : Msg) (f : List Field)
    (w : World) (h : w.engines[i]? = some z) (hz : z.core = none) (hm : m ≠ Method.Fatal) :
    zapLog (some i) m msg f w = .returned ()
      { w with calls := w.calls ++ [EngineCall.log (some i) m msg f] } := by
  rw [zapLog_engine i z m msg f w h hm]
  simp [ZapLogger.write, hz, set_of_getElem? w.engines i z h]

theorem live_iff (w : World) (l : Option Nat) :
    live w l = true ↔ ∃ s i z, deref w l = some s ∧ s.zap = some i ∧ w.engines[i]? = some z := by
  unfold live
  cases hd : deref w l with
  | none => simp
  | some s =>
    cases hz : s.zap with
    | none => simp [hz]
    | some i =>
      cases he : w.engines[i]? with
      | none => simp [hz, he]
      | some z => simp [hz, he]

/-! ## Lemmas on `New` -/

theorem New_disabled (enc : LogEncoding) (v : DebugVerbosity) (w : World) :
    New ModeDisabled enc v w = .returned (some w.loggers.length)
      (w.afterNew v { core := none, callerSkip := 0, counts := [] }) := by
  simp [New, ModeDisabled, ModeDevel, ModeProduction, NewNop, zapSync, Outcome.bind,
    World.afterNew]

theorem New_devel (enc : LogEncoding) (v : DebugVerbosity) (w : World)
    (h : enc ∈ registeredEncoders) :
    ∃ cfg : Config, cfg.Level = DebugLevel ∧ cfg.Sampling = none ∧ cfg.Encoding = enc ∧
      New ModeDevel enc v w = .returned (some w.loggers.length)
        (w.afterNew v { core := some cfg, callerSkip := 1, counts := [] }) := by
  refine ⟨
    { Level := DebugLevel, Development := true, Sampling := none, Encoding := enc,
      EncoderConfig := (if enc = EncodingConsole then .development else .production),
      OutputPaths := ["stderr"], ErrorOutputPaths := ["stderr"] }, rfl, rfl, rfl, ?_⟩
  simp [New, Config.Build, h, zapSync, Outcome.bind, World.afterNew]

theorem New_production (enc : LogEncoding) (v : DebugVerbosity) (w : World)
    (h : enc ∈ registeredEncoders) :
    ∃ cfg : Config, cfg.Level = InfoLevel ∧
      cfg.Sampling = some { Initial := 100, Thereafter := 100 } ∧ cfg.Encoding = enc ∧
      New ModeProduction enc v w = .returned (some w.loggers.length)
        (w.afterNew v { core := some cfg, callerSkip := 1, counts := [] }) := by
  refine ⟨
    { Level := InfoLevel, Development := false,
      Sampling := some { Initial := 100, Thereafter := 100 }, Encoding := enc,
      EncoderConfig := (if enc = EncodingConsole then .development else .production),
      OutputPaths := ["stderr"], ErrorOutputPaths := ["stderr"] }, rfl, rfl, rfl, ?_⟩
  simp [New, ModeDevel, ModeProduction, Config.Build, h, zapSync, Outcome.bind,
    World.afterNew]

theorem New_nil_engine (mode : LogMode) (enc : LogEncoding) (v : DebugVerbosity) (w : World)
    (h : ¬ (mode = ModeDisabled ∨
      ((mode = ModeDevel ∨ mode = ModeProduction) ∧ enc ∈ registeredEncoders))) :
    New mode enc v w = .panicked
      { w with
        loggers := w.loggers ++ [{ verbosity := v, zap := none }],
        calls := w.calls ++ [EngineCall.sync none] } := by
  simp only [not_or, not_and] at h
  obtain ⟨h1, h2⟩ := h
  by_cases hd : mode = ModeDevel
  · have he : enc ∉ registeredEncoders := h2 (Or.inl hd)
    simp [New, hd, Config.Build, he, zapSync, Outcome.bind]
  · by_cases hp : mode = ModeProduction
    · have he : enc ∉ registeredEncoders := h2 (Or.inr hp)
      simp [New, hd, hp, Config.Build, he, zapSync, Outcome.bind]
    · simp [New, hd, hp, h1, zapSync, Outcome.bind]

theorem New_returned (mode : LogMode) (enc : LogEncoding) (v : DebugVerbosity) (w w1 : World)
    (p : Option Nat) (h : New mode enc v w = .returned p w1) :
    (mode = ModeDisabled ∨
      ((mode = ModeDevel ∨ mode = ModeProduction) ∧ enc ∈ registeredEncoders)) ∧
    ∃ z, p = some w.loggers.length ∧ w1 = w.afterNew v z := by
  by_cases hc : mode = ModeDisabled ∨
      ((mode = ModeDevel ∨ mode = ModeProduction) ∧ enc ∈ registeredEncoders)
  · refine ⟨hc, ?_⟩
    rcases hc with hd | ⟨hd | hd, he⟩
    · subst hd
      rw [New_disabled] at h
      injection h with h1 h2
      exact ⟨_, h1.symm, h2.symm⟩
    · subst hd
      obtain ⟨cfg, -, -, -, hn⟩ := New_devel enc v w he
      rw [hn] at h
      injection h with h1 h2
      exact ⟨_, h1.symm, h2.symm⟩
    · subst hd
      obtain ⟨cfg, -, -, -, hn⟩ := New_production enc v w he
      rw [hn] at h
      injection h with h1 h2
      exact ⟨_, h1.symm, h2.symm⟩
  · rw [New_nil_engine mode enc v w hc] at h
    cases h

theorem afterNew_live (w : World) (v : DebugVerbosity) (z : ZapLogger) :
    deref (w.afterNew v z) (some w.loggers.length)
        = some { verbosity := v, zap := some w.engines.length } ∧
      (w.afterNew v z).engines[w.engines.length]? = some z := by
  simp [deref, World.afterNew]

theorem declared_registered (enc : LogEncoding)
    (he : enc ∈ [EncodingJson, EncodingConsole]) : enc ∈ registeredEncoders := by
  simp [EncodingJson, EncodingConsole] at he
  rcases he with he | he <;> simp [he, registeredEncoders]

theorem New_declared (mode : LogMode) (enc : LogEncoding) (v : DebugVerbosity) (w : World)
    (hm : mode ∈ [ModeDevel, ModeProduction, ModeDisabled])
    (he : enc ∈ [EncodingJson, EncodingConsole]) :
    ∃ z, New mode enc v w = .returned (some w.loggers.length) (w.afterNew v z) := by
  have hreg := declared_registered enc he
  simp only [List.mem_cons, List.mem_singleton, List.not_mem_nil, or_false] at hm
  rcases hm with hm | hm | hm
  · subst hm
    obtain ⟨cfg, -, -, -, hn⟩ := New_devel enc v w hreg
    exact ⟨_, hn⟩
  · subst hm
    obtain ⟨cfg, -, -, -, hn⟩ := New_production enc v w hreg
    exact ⟨_, hn⟩
  · subst hm
    exact ⟨_, New_disabled enc v w⟩

theorem afterNew_frame (w : World) (v : DebugVerbosity) (z : ZapLogger) :
    (∀ (q : Option Nat) (s : Logger), deref w q = some s → deref (w.afterNew v z) q = some s) ∧
    (∀ (i : Nat) (e : ZapLogger), w.engines[i]? = some e →
      (w.afterNew v z).engines[i]? = some e) := by
  constructor
  · intro q s h
    cases q with
    | none => simp [deref] at h
    | some i =>
      simp only [deref] at h
      have hi : i < w.loggers.length := (List.getElem?_eq_some.mp h).1
      simp only [deref, World.afterNew]
      rw [List.getElem?_append_left hi]
      exact h
  · intro i e h
    have hi : i < w.engines.length := (List.getElem?_eq_some.mp h).1
    simp only [World.afterNew]
    rw [List.getElem?_append_left hi]
    exact h

/-! ## Lemmas on the leveled methods -/

theorem LogOp_run_nop (l : Option Nat) (s : Logger) (i : Nat) (z : ZapLogger) (op : LogOp)
    (w : World) (hl : deref w l = some s) (hs : s.zap = some i)
    (he : w.engines[i]? = some z) (hz : z.core = none) :
    ∃ c, op.run l w = .returned () { w with calls := w.calls ++ [c] } := by
  cases op with
  | Info msg f =>
    exact ⟨_, by
      simp only [LogOp.run, Logger.Info, hl, hs]
      exact zapLog_nop i z Method.Info msg f w he hz (by decide)⟩
  | Warn msg f =>
    exact ⟨_, by
      simp only [LogOp.run, Logger.Warn, hl, hs]
      exact zapLog_nop i z Method.Warn msg f w he hz (by decide)⟩
  | Error msg f =>
    exact ⟨_, by
      simp only [LogOp.run, Logger.Error, hl, hs]
      exact zapLog_nop i z Method.Error msg f w he hz (by decide)⟩

theorem runOps_nop (l : Option Nat) (s : Logger) (i : Nat) (z : ZapLogger) (ops : List LogOp)
    (w : World) (hl : deref w l = some s) (hs : s.zap = some i)
    (he : w.engines[i]? = some z) (hz : z.core = none) :
    ∃ w2, runOps l ops w = .returned () w2 ∧ w2.stderr = w.stderr ∧
      w2.engines = w.engines ∧ w2.loggers = w.loggers ∧ w2.logger = w.logger := by
  induction ops generalizing w with
  | nil => exact ⟨w, rfl, rfl, rfl, rfl, rfl⟩
  | cons op ops ih =>
    obtain ⟨c, hc⟩ := LogOp_run_nop l s i z op w hl hs he hz
    obtain ⟨w2, h1, h2, h3, h4, h5⟩ :=
      ih { w with calls := w.calls ++ [c] } (by simpa [deref] using hl) he
    exact ⟨w2, by simp [runOps, hc, Outcome.bind, h1], h2, h3, h4, h5⟩

/-! ## Verbosity-gated Debug -/

/-- C1: for a Logger with verbosity `s.verbosity` and any requested level `r`,
`Logger.Debug` forwards exactly one `Debug` call with the same message and
fields to the Logger's engine when `s.verbosity ≥ r`, and otherwise returns
with the state unchanged, so that no engine call is made; the call is forwarded
if and only if `s.verbosity ≥ r`.  The free function `Debug` is the same
against the singleton.  A Logger of verbosity 3 forwards `Debug(3, "x")` and
`Debug(0, "x")` and not `Debug(4, "x")`. -/
theorem Debug_emits_iff (w : World) (l : Option Nat) (s : Logger) (r : DebugVerbosity)
    (msg : Msg) (f : List Field) (h : deref w l = some s) :
    (s.verbosity ≥ r → Logger.Debug l r msg f w = zapLog s.zap Method.Debug msg f w) ∧
    (s.verbosity < r → Logger.Debug l r msg f w = .returned () w) ∧
    ((Logger.Debug l r msg f w).world.calls
        = w.calls ++ [EngineCall.log s.zap Method.Debug msg f] ↔ s.verbosity ≥ r) ∧
    ((Logger.Debug l r msg f w).world.calls = w.calls ↔ s.verbosity < r) ∧
    (w.logger = l → Debug r msg f w = Logger.Debug l r msg f w) ∧
    (s.verbosity = 3 →
      (Logger.Debug l 3 [120] [] w).world.calls
          = w.calls ++ [EngineCall.log s.zap Method.Debug [120] []] ∧
      (Logger.Debug l 0 [120] [] w).world.calls
          = w.calls ++ [EngineCall.log s.zap Method.Debug [120] []] ∧
      Logger.Debug l 4 [120] [] w = .returned () w) := by
  have hge : ∀ (r : DebugVerbosity) (msg : Msg) (f : List Field), s.verbosity ≥ r →
      Logger.Debug l r msg f w = zapLog s.zap Method.Debug msg f w := by
    intro r msg f hr
    simp [Logger.Debug, h, hr]
  have hlt : ∀ (r : DebugVerbosity) (msg : Msg) (f : List Field), s.verbosity < r →
      Logger.Debug l r msg f w = .returned () w := by
    intro r msg f hr
    simp [Logger.Debug, h, not_le.mpr hr]
  refine ⟨hge r msg f, hlt r msg f, ?_, ?_, ?_, ?_⟩
  · constructor
    · intro hc
      by_contra hn
      rw [hlt r msg f (not_le.mp hn)] at hc
      simp [Outcome.world] at hc
    · intro hr
      rw [hge r msg f hr, zapLog_calls]
  · constructor
    · intro hc
      by_contra hn
      rw [hge r msg f (not_lt.mp hn), zapLog_calls] at hc
      simp at hc
    · intro hr
      rw [hlt r msg f hr]
      rfl
  · intro hw
    subst hw
    rfl
  · intro h3
    refine ⟨?_, ?_, ?_⟩
    · rw [hge 3 _ _ (by simp [h3]), zapLog_calls]
    · rw [hge 0 _ _ (by simp [h3]), zapLog_calls]
    · exact hlt 4 _ _ (by simp [h3])

/-- C1 at a Logger of verbosity 3 built in development mode: its pointer is
valid, and the conclusions of `Debug_emits_iff` hold there. -/
theorem Debug_emits_iff_witness :
    deref (New ModeDevel EncodingConsole 3 World.empty).world (some 0)
        = some { verbosity := 3, zap := some 0 } ∧
    (Logger.Debug (some 0) 4 [120] [] (New ModeDevel EncodingConsole 3 World.empty).world).world.calls
        = (New ModeDevel EncodingConsole 3 World.empty).world.calls ∧
    (Logger.Debug (some 0) 3 [120] [] (New ModeDevel EncodingConsole 3 World.empty).world).world.calls
        = [EngineCall.sync (some 0), EngineCall.log (some 0) Method.Debug [120] []] :=
  ⟨by decide,
   ((Debug_emits_iff (New ModeDevel EncodingConsole 3 World.empty).world (some 0)
      { verbosity := 3, zap := some 0 } 4 [120] [] (by decide)).2.2.2.1).mpr (by decide),
   ((Debug_emits_iff (New ModeDevel EncodingConsole 3 World.empty).world (some 0)
      { verbosity := 3, zap := some 0 } 3 [120] [] (by decide)).2.2.1).mpr (by decide)⟩

/-! ## The two forms of the leveled methods -/

/-- C9: in every state, each free function `Info`, `Warn`, `Error`, `Fatal` and
`Debug` has the same outcome (the same final state, hence the same engine
calls) as the method of the same name called on the Logger that the singleton
variable holds. -/
theorem free_functions_eq_methods (w : World) (v : DebugVerbosity) (msg : Msg)
    (f : List Field) :
    Info msg f w = Logger.Info w.logger msg f w ∧
    Warn msg f w = Logger.Warn w.logger msg f w ∧
    Error msg f w = Logger.Error w.logger msg f w ∧
    Fatal msg f w = Logger.Fatal w.logger msg f w ∧
    Debug v msg f w = Logger.Debug w.logger v msg f w :=
  ⟨rfl, rfl, rfl, rfl, rfl⟩

/-! ## Construction -/

/-- C4: for every declared mode (development, production, disabled), every
declared encoding (json, console) and every verbosity `v`, `New` returns a
non-nil pointer to a Logger whose engine pointer is non-nil and refers to an
engine, and whose verbosity is `v`.  Moreover, for arbitrary mode and encoding
strings, whenever `New` returns, its result is such a Logger. -/
theorem New_engine_nonnil (mode : LogMode) (enc : LogEncoding) (v : DebugVerbosity)
    (w : World) (hm : mode ∈ [ModeDevel, ModeProduction, ModeDisabled])
    (he : enc ∈ [EncodingJson, EncodingConsole]) :
    (∃ p w1, New mode enc v w = .returned p w1 ∧
      ∃ l i z, p = some l ∧ deref w1 p = some { verbosity := v, zap := some i } ∧
        w1.engines[i]? = some z) ∧
    (∀ (mode1 : LogMode) (enc1 : LogEncoding) (p : Option Nat) (w1 : World),
      New mode1 enc1 v w = .returned p w1 →
      ∃ l i z, p = some l ∧ deref w1 p = some { verbosity := v, zap := some i } ∧
        w1.engines[i]? = some z) := by
  have hreg : enc ∈ registeredEncoders := by
    simp [EncodingJson, EncodingConsole] at he
    rcases he with he | he <;> simp [he, registeredEncoders]
  have key : ∀ (mode1 : LogMode) (enc1 : LogEncoding) (p : Option Nat) (w1 : World),
      New mode1 enc1 v w = .returned p w1 →
      ∃ l i z, p = some l ∧ deref w1 p = some { verbosity := v, zap := some i } ∧
        w1.engines[i]? = some z := by
    intro mode1 enc1 p w1 h
    obtain ⟨-, z, hp, hw⟩ := New_returned mode1 enc1 v w w1 p h
    subst hp hw
    exact ⟨_, _, z, rfl, (afterNew_live w v z).1, (afterNew_live w v z).2⟩
  refine ⟨?_, key⟩
  simp only [List.mem_cons, List.mem_singleton, List.not_mem_nil, or_false] at hm
  rcases hm with hm | hm | hm
  · subst hm
    obtain ⟨cfg, -, -, -, hn⟩ := New_devel enc v w hreg
    exact ⟨_, _, hn, key _ _ _ _ hn⟩
  · subst hm
    obtain ⟨cfg, -, -, -, hn⟩ := New_production enc v w hreg
    exact ⟨_, _, hn, key _ _ _ _ hn⟩
  · subst hm
    exact ⟨_, _, New_disabled enc v w, key _ _ _ _ (New_disabled enc v w)⟩

/-- C4 at production mode with JSON encoding and verbosity 3, in the state
before initialisation. -/
theorem New_engine_nonnil_witness :
    (ModeProduction ∈ [ModeDevel, ModeProduction, ModeDisabled] ∧
      EncodingJson ∈ [EncodingJson, EncodingConsole]) ∧
    ∃ p w1, New ModeProduction EncodingJson 3 World.empty = .returned p w1 ∧
      ∃ l i z, p = some l ∧ deref w1 p = some { verbosity := 3, zap := some i } ∧
        w1.engines[i]? = some z :=
  ⟨⟨by decide, by decide⟩,
   (New_engine_nonnil ModeProduction EncodingJson 3 World.empty (by decide) (by decide)).1⟩

/-- C5: when building the engine fails (an encoding the engine does not know),
or when the mode is none of the three declared ones, the engine pointer is
nil, the deferred `Sync` is called on that nil pointer, and `New` panics
instead of returning a Logger; the Logger it had allocated holds a nil
engine. -/
theorem New_panics_on_nil_engine (v : DebugVerbosity) (w : World) :
    New ModeDevel "xml" v w = .panicked
      { w with
        loggers := w.loggers ++ [{ verbosity := v, zap := none }],
        calls := w.calls ++ [EngineCall.sync none] } ∧
    New ModeProduction "" v w = .panicked
      { w with
        loggers := w.loggers ++ [{ verbosity := v, zap := none }],
        calls := w.calls ++ [EngineCall.sync none] } ∧
    New "verbose" EncodingJson v w = .panicked
      { w with
        loggers := w.loggers ++ [{ verbosity := v, zap := none }],
        calls := w.calls ++ [EngineCall.sync none] } ∧
    (New ModeDevel "xml" 0 World.empty).isReturned = false :=
  ⟨New_nil_engine ModeDevel "xml" v w (by decide),
   New_nil_engine ModeProduction "" v w (by decide),
   New_nil_engine "verbose" EncodingJson v w (by decide),
   by decide⟩

/-- C10: `NewNoop` is `New(ModeDisabled, EncodingConsole, 0)`: it returns a
fresh Logger of verbosity 0 whose engine is a no-op engine, and any sequence of
`Info`, `Warn` and `Error` calls on that Logger, as well as a `Debug` call at
any level, returns and writes nothing. -/
theorem NewNoop_eq_New_disabled (w : World) :
    NewNoop w = New ModeDisabled EncodingConsole 0 w ∧
    ∃ w1, NewNoop w = .returned (some w.loggers.length) w1 ∧
      deref w1 (some w.loggers.length) = some { verbosity := 0, zap := some w.engines.length } ∧
      w1.engines[w.engines.length]? = some { core := none, callerSkip := 0, counts := [] } ∧
      w1.stderr = w.stderr ∧
      (∀ ops : List LogOp, ∃ w2, runOps (some w.loggers.length) ops w1 = .returned () w2 ∧
        w2.stderr = w.stderr) ∧
      (∀ (r : DebugVerbosity) (msg : Msg) (f : List Field),
        ∃ w2, Logger.Debug (some w.loggers.length) r msg f w1 = .returned () w2 ∧
          w2.stderr = w.stderr) := by
  have hl := (afterNew_live w 0 { core := none, callerSkip := 0, counts := [] }).1
  have he := (afterNew_live w 0 { core := none, callerSkip := 0, counts := [] }).2
  refine ⟨rfl, _, New_disabled EncodingConsole 0 w, hl, he, rfl, ?_, ?_⟩
  · intro ops
    obtain ⟨w2, h1, h2, -⟩ := runOps_nop (some w.loggers.length) _ _ _ ops _ hl rfl he rfl
    exact ⟨w2, h1, h2⟩
  · intro r msg f
    by_cases hr : (0 : Int) ≥ r
    · have hz := zapLog_nop _ _ Method.Debug msg f _ he rfl (by decide)
      have hd : Logger.Debug (some w.loggers.length) r msg f
          (w.afterNew 0 { core := none, callerSkip := 0, counts := [] })
          = zapLog (some w.engines.length) Method.Debug msg f
              (w.afterNew 0 { core := none, callerSkip := 0, counts := [] }) := by
        simp only [Logger.Debug, hl, hr, if_true]
      exact ⟨_, hd.trans hz, rfl⟩
    · exact ⟨w.afterNew 0 { core := none, callerSkip := 0, counts := [] },
        by simp [Logger.Debug, hl, hr], rfl⟩

/-! ## Disabled mode -/

/-- C7: for every encoding and verbosity, `New` with mode disabled returns a
Logger on which every finite sequence of `Info`, `Warn` and `Error` calls, with
any messages and fields, returns and leaves the written output exactly as it
was before `New`: nothing is written. -/
theorem disabled_emits_nothing (enc : LogEncoding) (v : DebugVerbosity) (w : World)
    (ops : List LogOp) :
    ∃ p w1 w2, New ModeDisabled enc v w = .returned p w1 ∧ w1.stderr = w.stderr ∧
      runOps p ops w1 = .returned () w2 ∧ w2.stderr = w.stderr ∧
      w2.engines = w1.engines := by
  obtain ⟨w2, h1, h2, h3, -⟩ := runOps_nop (some w.loggers.length) _ _ _ ops _
    (afterNew_live w v { core := none, callerSkip := 0, counts := [] }).1 rfl
    (afterNew_live w v _).2 rfl
  exact ⟨_, _, w2, New_disabled enc v w, rfl, h1, h2, h3⟩

/-! ## The stream adapter -/

theorem ErrorLog_ne_InfoLog : ErrorLog ≠ InfoLog := by decide

theorem Write_live (w : World) (z : Writer) (p : List UInt8) (s : Logger) (i : Nat)
    (e : ZapLogger) (hl : deref w z.Logger = some s) (hs : s.zap = some i)
    (he : w.engines[i]? = some e) :
    ∃ w1, Writer.Write z p w = .returned ((p.length : Int), none) w1 ∧
      w1.calls = w.calls ++ routed z s p ∧ w1.loggers = w.loggers ∧
      w1.engines.length = w.engines.length := by
  by_cases h1 : z.Logtype = InfoLog
  · have hz := zapLog_engine i e Method.Info p [] w he (by decide)
    have hw : Writer.Write z p w = (zapLog (some i) Method.Info p [] w).bind
        fun _ w1 => .returned ((p.length : Int), none) w1 := by
      simp only [Writer.Write, h1, if_true, Logger.Info, hl, hs]
    rw [hz] at hw
    exact ⟨_, hw, by simp [routed, h1, hs], rfl, by simp⟩
  · by_cases h2 : z.Logtype = ErrorLog
    · have hz := zapLog_engine i e Method.Error p [] w he (by decide)
      have hw : Writer.Write z p w = (zapLog (some i) Method.Error p [] w).bind
          fun _ w1 => .returned ((p.length : Int), none) w1 := by
        simp only [Writer.Write, h2, ErrorLog_ne_InfoLog, if_true, if_false, Logger.Error, hl, hs]
      rw [hz] at hw
      exact ⟨_, hw, by simp [routed, h2, ErrorLog_ne_InfoLog, hs], rfl, by simp⟩
    · exact ⟨w, by simp [Writer.Write, h1, h2, Outcome.bind], by simp [routed, h1, h2], rfl, rfl⟩

theorem Write_untagged (w : World) (z : Writer) (p : List UInt8)
    (h1 : z.Logtype ≠ InfoLog) (h2 : z.Logtype ≠ ErrorLog) :
    Writer.Write z p w = .returned ((p.length : Int), none) w := by
  simp [Writer.Write, h1, h2, Outcome.bind]

/-- C2: `Writer.Write(p)` returns `n = len(p)` and a nil error, for every byte
slice `p` and every tag: for the tags `InfoLog` and `ErrorLog` when the Writer
holds a Logger with an engine (as every Logger returned by `New` has), and for
every other tag whatever the Writer holds. -/
theorem Write_returns_len (w : World) (z : Writer) (p : List UInt8)
    (h : live w z.Logger = true ∨ (z.Logtype ≠ InfoLog ∧ z.Logtype ≠ ErrorLog)) :
    (Writer.Write z p w).value = some ((p.length : Int), none) := by
  rcases h with h | ⟨h1, h2⟩
  · obtain ⟨s, i, e, hl, hs, he⟩ := (live_iff w z.Logger).mp h
    obtain ⟨w1, hw, -⟩ := Write_live w z p s i e hl hs he
    rw [hw]
    rfl
  · rw [Write_untagged w z p h1 h2]
    rfl

/-- C2 at the initial singleton Logger, info-tagged, with the five bytes of
"hello". -/
theorem Write_returns_len_witness :
    live (New ModeDisabled EncodingConsole 0 World.empty).world (some 0) = true ∧
    (Writer.Write { Logger := some 0, Logtype := InfoLog } [104, 101, 108, 108, 111]
      (New ModeDisabled EncodingConsole 0 World.empty).world).value = some (5, none) :=
  ⟨by decide,
   Write_returns_len (New ModeDisabled EncodingConsole 0 World.empty).world
     { Logger := some 0, Logtype := InfoLog } [104, 101, 108, 108, 111] (Or.inl (by decide))⟩

/-- C3: `Writer.Write(p)` is one call of the held Logger's `Info` with message
`string(p)` and no fields when the tag is `InfoLog`, one call of its `Error`
when the tag is `ErrorLog`, and no call at all for any other tag; the engine
calls it makes are those of `routed`, in any state, so that two successive
Writes make the calls of each, one after the other.  With the bytes of
"hello" on a development Logger: one info record, one error record, or, for
tag zero, nothing. -/
theorem Write_routes (w : World) (z : Writer) (p q : List UInt8) (s : Logger)
    (h : deref w z.Logger = some s) :
    (z.Logtype = InfoLog → Writer.Write z p w =
      (Logger.Info z.Logger p [] w).bind fun _ w1 => .returned ((p.length : Int), none) w1) ∧
    (z.Logtype = ErrorLog → Writer.Write z p w =
      (Logger.Error z.Logger p [] w).bind fun _ w1 => .returned ((p.length : Int), none) w1) ∧
    (z.Logtype ≠ InfoLog → z.Logtype ≠ ErrorLog →
      Writer.Write z p w = .returned ((p.length : Int), none) w) ∧
    (Writer.Write z p w).world.calls = w.calls ++ routed z s p ∧
    (live w z.Logger = true →
      ((Writer.Write z p w).bind fun _ w1 => Writer.Write z q w1).world.calls
        = w.calls ++ routed z s p ++ routed z s q) ∧
    ((Writer.Write { Logger := some 0, Logtype := InfoLog } [104, 101, 108, 108, 111]
        (New ModeDevel EncodingJson 0 World.empty).world).world.stderr
      = [{ Level := InfoLevel, Message := [104, 101, 108, 108, 111], Fields := [] }]) ∧
    ((Writer.Write { Logger := some 0, Logtype := ErrorLog } [104, 101, 108, 108, 111]
        (New ModeDevel EncodingJson 0 World.empty).world).world.stderr
      = [{ Level := ErrorLevel, Message := [104, 101, 108, 108, 111], Fields := [] }]) ∧
    (Writer.Write { Logger := some 0, Logtype := 0 } [104, 101, 108, 108, 111]
        (New ModeDevel EncodingJson 0 World.empty).world
      = .returned (5, none) (New ModeDevel EncodingJson 0 World.empty).world) := by
  refine ⟨?_, ?_, Write_untagged w z p, ?_, ?_, by decide, by decide,
    Write_untagged _ _ _ (by decide) (by decide)⟩
  · intro h1
    simp [Writer.Write, h1]
  · intro h2
    simp [Writer.Write, h2, ErrorLog_ne_InfoLog]
  · by_cases h1 : z.Logtype = InfoLog
    · simp only [Writer.Write, h1, if_true, Logger.Info, h, routed]
      have hc := zapLog_calls s.zap Method.Info p [] w
      cases hz : zapLog s.zap Method.Info p [] w <;> rw [hz] at hc <;>
        simpa [Outcome.bind, Outcome.world] using hc
    · by_cases h2 : z.Logtype = ErrorLog
      · simp only [Writer.Write, h2, ErrorLog_ne_InfoLog, if_true, if_false, Logger.Error, h, routed]
        have hc := zapLog_calls s.zap Method.Error p [] w
        cases hz : zapLog s.zap Method.Error p [] w <;> rw [hz] at hc <;>
          simpa [Outcome.bind, Outcome.world] using hc
      · rw [Write_untagged w z p h1 h2]
        simp [routed, h1, h2, Outcome.world]
  · intro hl
    obtain ⟨s1, i, e, hd, hs, he⟩ := (live_iff w z.Logger).mp hl
    have hss : s1 = s := by
      rw [h] at hd
      exact (Option.some.inj hd).symm
    subst hss
    obtain ⟨w1, hw, hc, hlog, hlen⟩ := Write_live w z p s1 i e hd hs he
    have hd1 : deref w1 z.Logger = some s1 := by
      cases hz : z.Logger with
      | none => rw [hz] at hd; simp [deref] at hd
      | some j =>
        rw [hz] at hd
        simp only [deref] at hd ⊢
        rw [hlog]
        exact hd
    have hi : i < w1.engines.length := by
      rw [hlen]
      exact (List.getElem?_eq_some.mp he).1
    obtain ⟨e1, he1⟩ : ∃ e1, w1.engines[i]? = some e1 :=
      ⟨_, List.getElem?_eq_getElem hi⟩
    obtain ⟨w2, hw2, hc2, -⟩ := Write_live w1 z q s1 i e1 hd1 hs he1
    rw [hw]
    simp only [Outcome.bind]
    rw [hw2]
    simp [Outcome.world, hc2, hc]

/-- C3 at the initial singleton Logger with an info tag: the engine calls after
a Write of "hello" are the construction-time `Sync` and one `Info` call. -/
theorem Write_routes_witness :
    deref (New ModeDisabled EncodingConsole 0 World.empty).world (some 0)
        = some { verbosity := 0, zap := some 0 } ∧
    (Writer.Write { Logger := some 0, Logtype := InfoLog } [104, 101, 108, 108, 111]
        (New ModeDisabled EncodingConsole 0 World.empty).world).world.calls
      = [EngineCall.sync (some 0),
         EngineCall.log (some 0) Method.Info [104, 101, 108, 108, 111] []] :=
  ⟨by decide,
   (Write_routes (New ModeDisabled EncodingConsole 0 World.empty).world
      { Logger := some 0, Logtype := InfoLog } [104, 101, 108, 108, 111] []
      { verbosity := 0, zap := some 0 } (by decide)).2.2.2.1⟩

/-! ## Mode switch on the singleton -/

/-- C6: whenever `SetMode` returns, the state it leaves is the state that `New`
leaves, with the singleton variable set to the Logger `New` returned.  That
Logger is fresh; every pointer that referred to a Logger before the call
refers to the same Logger value (same engine pointer, same verbosity) after
it, every engine object is as it was, nothing is written, and a following free
`Info` goes to the engine of the new Logger.  For a declared mode and encoding
`SetMode` does return.  From the initial disabled singleton, `Info` writes
nothing, and after `SetMode(ModeProduction, EncodingJson, 0)` it writes one
record. -/
theorem SetMode_replaces_singleton (mode : LogMode) (enc : LogEncoding) (v : DebugVerbosity)
    (w : World) :
    (∀ w1, SetMode mode enc v w = .returned () w1 →
      ∃ w0, New mode enc v w = .returned (some w.loggers.length) w0 ∧
        w1 = { w0 with logger := some w.loggers.length } ∧
        deref w (some w.loggers.length) = none ∧
        deref w1 w1.logger = some { verbosity := v, zap := some w.engines.length } ∧
        (∀ (q : Option Nat) (s : Logger), deref w q = some s → deref w1 q = some s) ∧
        (∀ (i : Nat) (e : ZapLogger), w.engines[i]? = some e → w1.engines[i]? = some e) ∧
        w1.stderr = w.stderr ∧
        (∀ (msg : Msg) (f : List Field),
          Info msg f w1 = zapLog (some w.engines.length) Method.Info msg f w1)) ∧
    (mode ∈ [ModeDevel, ModeProduction, ModeDisabled] → enc ∈ [EncodingJson, EncodingConsole] →
      (SetMode mode enc v w).isReturned = true) ∧
    ((init.bind fun _ w0 => Info [120] [] w0).world.stderr = [] ∧
      (init.bind fun _ w0 => (SetMode ModeProduction EncodingJson 0 w0).bind
          fun _ w1 => Info [120] [] w1).world.stderr
        = [{ Level := InfoLevel, Message := [120], Fields := [] }]) := by
  refine ⟨?_, ?_, by decide, by decide⟩
  · intro w1 hset
    cases hN : New mode enc v w with
    | panicked wp => simp [SetMode, hN, Outcome.bind] at hset
    | exited wp => simp [SetMode, hN, Outcome.bind] at hset
    | returned p w0 =>
      obtain ⟨-, z, hp, hw0⟩ := New_returned mode enc v w w0 p hN
      subst hp hw0
      have hw1 : w1 = { w.afterNew v z with logger := some w.loggers.length } := by
        simp only [SetMode, hN, Outcome.bind] at hset
        injection hset with _ h2
        exact h2.symm
      subst hw1
      have hl := (afterNew_live w v z).1
      have hf := afterNew_frame w v z
      refine ⟨_, rfl, rfl, ?_, ?_, ?_, ?_, rfl, ?_⟩
      · simp [deref]
      · simpa [deref] using hl
      · intro q s hq
        simpa [deref] using hf.1 q s hq
      · intro i e hi
        exact hf.2 i e hi
      · intro msg f
        have hd : deref { w.afterNew v z with logger := some w.loggers.length }
            (some w.loggers.length) = some { verbosity := v, zap := some w.engines.length } := by
          simpa [deref] using hl
        simp only [Info, hd]
  · intro hm he
    obtain ⟨z, hn⟩ := New_declared mode enc v w hm he
    simp [SetMode, hn, Outcome.bind, Outcome.isReturned]

/-- C6 from the initial state, switching to production mode with JSON
encoding: `SetMode` returns and the singleton then holds the fresh Logger. -/
theorem SetMode_replaces_singleton_witness :
    SetMode ModeProduction EncodingJson 0 init.world
        = .returned () (SetMode ModeProduction EncodingJson 0 init.world).world ∧
    ∃ w0, New ModeProduction EncodingJson 0 init.world = .returned (some 1) w0 ∧
      (SetMode ModeProduction EncodingJson 0 init.world).world = { w0 with logger := some 1 } :=
  ⟨by decide,
   match (SetMode_replaces_singleton ModeProduction EncodingJson 0 init.world).1
       (SetMode ModeProduction EncodingJson 0 init.world).world (by decide) with
   | ⟨w0, h1, h2, _⟩ => ⟨w0, h1, h2⟩⟩

/-! ## Minimum severity per mode -/

/-- C8: for every encoding and verbosity, a Logger that `New` returns in mode
production has an engine whose minimum severity is info, and one that `New`
returns in mode development has an engine whose minimum severity is debug.  On
the production Logger a `Debug` call at any level returns and writes nothing,
although the engine is called when the verbosity admits the level; on the
development Logger a `Debug` call that the verbosity admits writes exactly one
record, at debug level, with the message and fields of the call.  For the
declared encodings `New` does return such Loggers. -/
theorem mode_min_severity (enc : LogEncoding) (v : DebugVerbosity) (w : World) :
    (∀ p w1, New ModeProduction enc v w = .returned p w1 →
      ∃ i z cfg, deref w1 p = some { verbosity := v, zap := some i } ∧
        w1.engines[i]? = some z ∧ z.core = some cfg ∧ cfg.Level = InfoLevel ∧
        ∀ (r : DebugVerbosity) (msg : Msg) (f : List Field),
          ∃ w2, Logger.Debug p r msg f w1 = .returned () w2 ∧ w2.stderr = w1.stderr ∧
            (v ≥ r → w2.calls = w1.calls ++ [EngineCall.log (some i) Method.Debug msg f])) ∧
    (∀ p w1, New ModeDevel enc v w = .returned p w1 →
      ∃ i z cfg, deref w1 p = some { verbosity := v, zap := some i } ∧
        w1.engines[i]? = some z ∧ z.core = some cfg ∧ cfg.Level = DebugLevel ∧
        ∀ (r : DebugVerbosity) (msg : Msg) (f : List Field), v ≥ r →
          ∃ w2, Logger.Debug p r msg f w1 = .returned () w2 ∧
            w2.stderr = w1.stderr ++ [{ Level := DebugLevel, Message := msg, Fields := f }] ∧
            w2.calls = w1.calls ++ [EngineCall.log (some i) Method.Debug msg f]) ∧
    (enc ∈ [EncodingJson, EncodingConsole] →
      (New ModeProduction enc v w).isReturned = true ∧
      (New ModeDevel enc v w).isReturned = true) := by
  refine ⟨?_, ?_, ?_⟩
  · intro p w1 h
    have hreg : enc ∈ registeredEncoders := by
      rcases (New_returned ModeProduction enc v w w1 p h).1 with hd | ⟨-, hr⟩
      · exact absurd hd (by decide)
      · exact hr
    obtain ⟨cfg, hlv, -, -, hn⟩ := New_production enc v w hreg
    rw [hn] at h
    injection h with hp hw
    subst hp hw
    have hl := (afterNew_live w v { core := some cfg, callerSkip := 1, counts := [] }).1
    have hz := (afterNew_live w v { core := some cfg, callerSkip := 1, counts := [] }).2
    refine ⟨_, _, cfg, hl, hz, rfl, hlv, ?_⟩
    intro r msg f
    by_cases hr : v ≥ r
    · have hd : Logger.Debug (some w.loggers.length) r msg f
          (w.afterNew v { core := some cfg, callerSkip := 1, counts := [] })
          = zapLog (some w.engines.length) Method.Debug msg f
              (w.afterNew v { core := some cfg, callerSkip := 1, counts := [] }) := by
        simp only [Logger.Debug, hl, hr, if_true]
      rw [zapLog_engine _ _ Method.Debug msg f _ hz (by decide)] at hd
      refine ⟨_, hd, ?_, fun _ => rfl⟩
      simp [ZapLogger.write, hlv, Method.level, DebugLevel, InfoLevel]
    · exact ⟨w.afterNew v { core := some cfg, callerSkip := 1, counts := [] },
        by simp [Logger.Debug, hl, hr], rfl, fun h => absurd h hr⟩
  · intro p w1 h
    have hreg : enc ∈ registeredEncoders := by
      rcases (New_returned ModeDevel enc v w w1 p h).1 with hd | ⟨-, hr⟩
      · exact absurd hd (by decide)
      · exact hr
    obtain ⟨cfg, hlv, hsm, -, hn⟩ := New_devel enc v w hreg
    rw [hn] at h
    injection h with hp hw
    subst hp hw
    have hl := (afterNew_live w v { core := some cfg, callerSkip := 1, counts := [] }).1
    have hz := (afterNew_live w v { core := some cfg, callerSkip := 1, counts := [] }).2
    refine ⟨_, _, cfg, hl, hz, rfl, hlv, ?_⟩
    intro r msg f hr
    have hd : Logger.Debug (some w.loggers.length) r msg f
        (w.afterNew v { core := some cfg, callerSkip := 1, counts := [] })
        = zapLog (some w.engines.length) Method.Debug msg f
            (w.afterNew v { core := some cfg, callerSkip := 1, counts := [] }) := by
      simp only [Logger.Debug, hl, hr, if_true]
    rw [zapLog_engine _ _ Method.Debug msg f _ hz (by decide)] at hd
    refine ⟨_, hd, ?_, rfl⟩
    simp [ZapLogger.write, hlv, hsm, Method.level, DebugLevel]
  · intro he
    have hreg := declared_registered enc he
    obtain ⟨_, -, -, -, h1⟩ := New_production enc v w hreg
    obtain ⟨_, -, -, -, h2⟩ := New_devel enc v w hreg
    simp [h1, h2, Outcome.isReturned]

/-- C8 with JSON encoding and verbosity 9, in the state before
initialisation: the production Logger exists and its engine has minimum
severity info; a `Debug` call at level 1 writes nothing in production mode and
one record in development mode. -/
theorem mode_min_severity_witness :
    New ModeProduction EncodingJson 9 World.empty
        = .returned (some 0) (New ModeProduction EncodingJson 9 World.empty).world ∧
    (∃ i z cfg,
      deref (New ModeProduction EncodingJson 9 World.empty).world (some 0)
          = some { verbosity := 9, zap := some i } ∧
      (New ModeProduction EncodingJson 9 World.empty).world.engines[i]? = some z ∧
      z.core = some cfg ∧ cfg.Level = InfoLevel) ∧
    ((New ModeProduction EncodingJson 9 World.empty).bind
        fun p w1 => Logger.Debug p 1 [120] [] w1).world.stderr = [] ∧
    ((New ModeDevel EncodingJson 9 World.empty).bind
        fun p w1 => Logger.Debug p 1 [120] [] w1).world.stderr
      = [{ Level := DebugLevel, Message := [120], Fields := [] }] :=
  ⟨by decide,
   match (mode_min_severity EncodingJson 9 World.empty).1 (some 0)
       (New ModeProduction EncodingJson 9 World.empty).world (by decide) with
   | ⟨i, z, cfg, h1, h2, h3, h4, _⟩ => ⟨i, z, cfg, h1, h2, h3, h4⟩,
   by decide, by decide⟩

end zlog
